import Mathlib

/-!
Formal model of the study-buddy template subsystem (`src/templates.py`) and
the deterministic flashcard generator (`src/gemini_processor.py`).

Python values that flow through the template engine are modelled by the
inductive type `Value` (strings, integers, `None`, lists, and
insertion-ordered dicts represented as association lists).  Python string
operations used by the code (`split`, `strip`, slicing, `replace`,
`title`) are modelled at the character-list level so that every
definition evaluates by kernel reduction.
-/

namespace StudyBuddy

/-- Python values stored in templates and filled content: strings, ints,
`None`, lists, and insertion-ordered dicts (association lists). -/
inductive Value where
  | vstr (s : String)
  | vnum (n : Int)
  | vnull
  | vlist (xs : List Value)
  | vdict (kvs : List (String × Value))

/-- A Python dict with string keys, in insertion order. -/
abbrev Dict := List (String × Value)

/-- First-match lookup in an association list: Python `d.get(k)` /
`d[k]` on a dict (which never holds duplicate keys). -/
def dlookup {α : Type} : List (String × α) → String → Option α
  | [], _ => none
  | (k', v') :: rest, k => if k' = k then some v' else dlookup rest k

/-- Overwrite one binding in place when its key is `k`. -/
def setEntry (k : String) (v : Value) (p : String × Value) : String × Value :=
  if p.1 = k then (k, v) else p

/-- Python `d[k] = v` on an insertion-ordered dict: overwrite in place if
the key is present, otherwise append the new binding at the end. -/
def dictSet (d : Dict) (k : String) (v : Value) : Dict :=
  if (dlookup d k).isSome then
    d.map (setEntry k v)
  else
    d ++ [(k, v)]

/-- Python `content.get(key, default)`. -/
def pyGet (d : Dict) (k : String) (default : Value) : Value :=
  (dlookup d k).getD default

/-- Python `str.split(sep)` for a one-character separator, at the
character-list level (keeps empty pieces, `[] ↦ [""]`). -/
def splitChar (sep : Char) : List Char → List (List Char)
  | [] => [[]]
  | c :: rest =>
    if c = sep then [] :: splitChar sep rest
    else
      match splitChar sep rest with
      | s :: ss => (c :: s) :: ss
      | [] => [[c]]

/-- Python `s.split(sep)` for a one-character separator. -/
def pySplit (sep : Char) (s : String) : List String :=
  (splitChar sep s.data).map String.mk

/-- The characters Python `str.strip()` removes by default. -/
def pyWhitespace (c : Char) : Bool :=
  c = ' ' ∨ c = '\t' ∨ c = '\n' ∨ c = '\r' ∨ c = '\x0b' ∨ c = '\x0c'

/-- Python `s.strip()`: drop leading and trailing whitespace. -/
def pyStrip (s : String) : String :=
  String.mk (((s.data.dropWhile pyWhitespace).reverse.dropWhile pyWhitespace).reverse)

/-- Python slicing `s[:n]` (by code points). -/
def pyTake (n : Nat) (s : String) : String := String.mk (s.data.take n)

/-- Python `s.replace(a, b)` for one-character `a` and `b`. -/
def pyReplaceChar (a b : Char) (s : String) : String :=
  String.mk (s.data.map (fun c => if c = a then b else c))

/-- Helper for `pyTitle`: tracks whether the previous character was
alphabetic (Python title-cases the first letter of every run of
letters and lowercases the rest). -/
def pyTitleGo : Bool → List Char → List Char
  | _, [] => []
  | prevAlpha, c :: rest =>
    (if c.isAlpha then (if prevAlpha then c.toLower else c.toUpper) else c)
      :: pyTitleGo c.isAlpha rest

/-- Python `s.title()`. -/
def pyTitle (s : String) : String := String.mk (pyTitleGo false s.data)

/-- Quote-and-escape a string the way Python `repr` does (printable
characters other than the quote and backslash pass through). -/
def pyReprStr (s : String) : String :=
  let q : Char := if s.data.contains '\'' ∧ ¬ s.data.contains '"' then '"' else '\''
  let esc : Char → String := fun c =>
    if c = q then "\\" ++ String.mk [q]
    else if c = '\\' then "\\\\"
    else if c = '\n' then "\\n"
    else if c = '\t' then "\\t"
    else if c = '\r' then "\\r"
    else String.mk [c]
  String.mk [q] ++ String.join (s.data.map esc) ++ String.mk [q]

mutual
/-- Python `repr(v)` for the values that occur here. -/
def pyRepr : Value → String
  | .vstr s => pyReprStr s
  | .vnum n => toString n
  | .vnull => "None"
  | .vlist xs => "[" ++ String.intercalate ", " (pyReprL xs) ++ "]"
  | .vdict kvs => "\x7b" ++ String.intercalate ", " (pyReprD kvs) ++ "\x7d"
/-- Elementwise `repr` of a list of values. -/
def pyReprL : List Value → List String
  | [] => []
  | v :: vs => pyRepr v :: pyReprL vs
/-- Entrywise `repr` of a dict's bindings. -/
def pyReprD : List (String × Value) → List String
  | [] => []
  | (k, v) :: vs => (pyReprStr k ++ ": " ++ pyRepr v) :: pyReprD vs
end

/-- Python `str(v)`: strings unquoted, `None ↦ "None"`, numbers in
decimal, containers via `repr`. -/
def pyStr : Value → String
  | .vstr s => s
  | .vnum n => toString n
  | .vnull => "None"
  | v => pyRepr v

/-- The canonical template registry `TEMPLATES` of `src/templates.py`,
in source order. -/
def TEMPLATES : List (String × Dict) :=
  [ ("note",
      [ ("title", .vstr "Topic / Title"),
        ("key_points", .vlist []),
        ("summary", .vstr ""),
        ("definitions", .vlist []),
        ("examples", .vlist []),
        ("questions", .vlist []) ]),
    ("flashcard",
      [ ("question", .vstr ""),
        ("answer", .vstr ""),
        ("hint", .vstr ""),
        ("difficulty", .vstr "Medium"),
        ("next_review_date", .vstr "") ]),
    ("quiz",
      [ ("question", .vstr ""),
        ("options", .vlist [.vstr "", .vstr "", .vstr "", .vstr ""]),
        ("correct_answer", .vstr "A"),
        ("explanation", .vstr "") ]),
    ("study_plan",
      [ ("weekly_goals", .vlist []),
        ("subjects", .vlist []),
        ("daily_targets", .vdict
          [ ("Mon", .vstr ""), ("Tue", .vstr ""), ("Wed", .vstr ""),
            ("Thu", .vstr ""), ("Fri", .vstr ""), ("Sat", .vstr ""),
            ("Sun", .vstr "") ]),
        ("resources_needed", .vlist []),
        ("progress_percent", .vnum 0),
        ("notes", .vstr "") ]),
    ("document_summary",
      [ ("document_title", .vstr ""),
        ("overview", .vstr ""),
        ("key_highlights", .vlist []),
        ("important_terms", .vlist []),
        ("action_items", .vlist []) ]),
    ("task",
      [ ("task", .vstr ""),
        ("priority", .vstr "Med"),
        ("deadline", .vstr ""),
        ("status", .vstr "Not Started"),
        ("notes", .vstr "") ]),
    ("research",
      [ ("topic", .vstr ""),
        ("objective", .vstr ""),
        ("sources", .vlist []),
        ("findings", .vlist []),
        ("conclusion", .vstr ""),
        ("references", .vlist []) ]) ]

/-- The seven known template names, in registry order. -/
def templateNames : List String := TEMPLATES.map Prod.fst

/-- Model of `get_template` from `src/templates.py`: look `name` up in
`TEMPLATES`; raise `KeyError("Unknown template: {name}")` when absent,
otherwise return a structurally equal copy produced by
`json.loads(json.dumps(base))`.  On immutable model values the JSON
round-trip is the identity; the freshness of the copy is modelled
separately by `get_template_heap` below. -/
def get_template (name : String) : Except String Dict :=
  match dlookup TEMPLATES name with
  | none => .error ("Unknown template: " ++ name)
  | some base => .ok base

/-- Model of `instantiate` from `src/templates.py`: start from the template copy
and set every overlay binding on it (`tpl[k] = v`, whether or not `k`
already exists — the open-extension merge).  `none` models the absent
argument and an empty dict is falsy, so both return the copy as is. -/
def instantiate (name : String) (values : Option Dict) : Except String Dict :=
  match get_template name with
  | .error e => .error e
  | .ok tpl =>
    match values with
    | none => .ok tpl
    | some vs =>
      match vs with
      | [] => .ok tpl
      | _ => .ok (vs.foldl (fun t kv => dictSet t kv.1 kv.2) tpl)

/-- Body lines appended by `add_section` in `render_markdown` after the
section header: lists become bullet lines (a single empty bullet for an
empty list), dicts become `- **key**: value` bullet lines, scalars
become their `str` form on one line (`None` becomes the empty
string). -/
def sectionBody : Value → List String
  | .vlist xs =>
    (match xs with | [] => ["- "] | _ => []) ++ xs.map (fun item => "- " ++ pyStr item)
  | .vdict kvs => kvs.map (fun p => "- **" ++ p.1 ++ "**: " ++ pyStr p.2)
  | .vnull => [""]
  | b => [pyStr b]

/-- Model of `add_section(title, body)` from `render_markdown`: a header element
`"\n**title**\n"` followed by the body lines. -/
def addSection (title : String) (body : Value) : List String :=
  ("\n**" ++ title ++ "**\n") :: sectionBody body

/-- JSON string escaping as used by `json.dumps` (ASCII fragment:
quote, backslash and common control characters are escaped; other
printable characters pass through). -/
def jsonEscape (s : String) : String :=
  let esc : Char → String := fun c =>
    if c = '"' then "\\\""
    else if c = '\\' then "\\\\"
    else if c = '\n' then "\\n"
    else if c = '\t' then "\\t"
    else if c = '\r' then "\\r"
    else String.mk [c]
  "\"" ++ String.join (s.data.map esc) ++ "\""

mutual
/-- Model of `json.dumps(v, indent=2)`: serialization at nesting level `lvl`. -/
def jsonDumps : Value → Nat → String
  | .vstr s, _ => jsonEscape s
  | .vnum n, _ => toString n
  | .vnull, _ => "null"
  | .vlist [], _ => "[]"
  | .vlist (x :: xs), lvl =>
    "[\n" ++ String.intercalate ",\n" (jsonDumpsL (x :: xs) (lvl + 1)) ++
      "\n" ++ String.mk (List.replicate (2 * lvl) ' ') ++ "]"
  | .vdict [], _ => "\x7b\x7d"
  | .vdict (kv :: kvs), lvl =>
    "\x7b\n" ++ String.intercalate ",\n" (jsonDumpsD (kv :: kvs) (lvl + 1)) ++
      "\n" ++ String.mk (List.replicate (2 * lvl) ' ') ++ "\x7d"
/-- Indented serialization of list elements. -/
def jsonDumpsL : List Value → Nat → List String
  | [], _ => []
  | v :: vs, lvl =>
    (String.mk (List.replicate (2 * lvl) ' ') ++ jsonDumps v lvl) :: jsonDumpsL vs lvl
/-- Indented serialization of dict entries. -/
def jsonDumpsD : List (String × Value) → Nat → List String
  | [], _ => []
  | (k, v) :: vs, lvl =>
    (String.mk (List.replicate (2 * lvl) ' ') ++ jsonEscape k ++ ": " ++ jsonDumps v lvl)
      :: jsonDumpsD vs lvl
end

/-- The `note` branch of `render_markdown`. -/
def renderNote (c : Dict) : List String :=
  addSection "Topic / Title" (pyGet c "title" (.vstr "")) ++
  addSection "Key Points" (pyGet c "key_points" (.vlist [])) ++
  addSection "Summary" (pyGet c "summary" (.vstr "")) ++
  addSection "Definitions" (pyGet c "definitions" (.vlist [])) ++
  addSection "Examples" (pyGet c "examples" (.vlist [])) ++
  addSection "Questions I Still Have" (pyGet c "questions" (.vlist []))

/-- The `flashcard` branch of `render_markdown`. -/
def renderFlashcard (c : Dict) : List String :=
  addSection "Question" (pyGet c "question" (.vstr "")) ++
  addSection "Answer" (pyGet c "answer" (.vstr "")) ++
  addSection "Hint" (pyGet c "hint" (.vstr "")) ++
  addSection "Difficulty" (pyGet c "difficulty" (.vstr "")) ++
  addSection "Next Review Date" (pyGet c "next_review_date" (.vstr ""))

/-- The `quiz` branch of `render_markdown`. -/
def renderQuiz (c : Dict) : List String :=
  addSection "Question" (pyGet c "question" (.vstr "")) ++
  addSection "Options" (pyGet c "options" (.vlist [])) ++
  addSection "Correct Answer" (pyGet c "correct_answer" (.vstr "")) ++
  addSection "Explanation" (pyGet c "explanation" (.vstr ""))

/-- The `study_plan` branch of `render_markdown`. -/
def renderStudyPlan (c : Dict) : List String :=
  addSection "Weekly Goals" (pyGet c "weekly_goals" (.vlist [])) ++
  addSection "Subjects" (pyGet c "subjects" (.vlist [])) ++
  addSection "Daily Targets" (pyGet c "daily_targets" (.vdict [])) ++
  addSection "Resources Needed" (pyGet c "resources_needed" (.vlist [])) ++
  addSection "Progress (%)" (pyGet c "progress_percent" (.vnum 0)) ++
  addSection "Notes" (pyGet c "notes" (.vstr ""))

/-- The `document_summary` branch of `render_markdown`. -/
def renderDocumentSummary (c : Dict) : List String :=
  addSection "Document Title" (pyGet c "document_title" (.vstr "")) ++
  addSection "Overview" (pyGet c "overview" (.vstr "")) ++
  addSection "Key Highlights" (pyGet c "key_highlights" (.vlist [])) ++
  addSection "Important Terms" (pyGet c "important_terms" (.vlist [])) ++
  addSection "Action Items / To-Do" (pyGet c "action_items" (.vlist []))

/-- The `task` branch of `render_markdown`. -/
def renderTask (c : Dict) : List String :=
  addSection "Task" (pyGet c "task" (.vstr "")) ++
  addSection "Priority" (pyGet c "priority" (.vstr "")) ++
  addSection "Deadline" (pyGet c "deadline" (.vstr "")) ++
  addSection "Status" (pyGet c "status" (.vstr "")) ++
  addSection "Notes" (pyGet c "notes" (.vstr ""))

/-- The `research` branch of `render_markdown`. -/
def renderResearch (c : Dict) : List String :=
  addSection "Topic" (pyGet c "topic" (.vstr "")) ++
  addSection "Objective" (pyGet c "objective" (.vstr "")) ++
  addSection "Sources" (pyGet c "sources" (.vlist [])) ++
  addSection "Findings" (pyGet c "findings" (.vlist [])) ++
  addSection "Conclusion" (pyGet c "conclusion" (.vstr "")) ++
  addSection "References" (pyGet c "references" (.vlist []))

/-- Model of `render_markdown(name, content)` from `src/templates.py`: a heading
line from the template name (underscores to spaces, title-cased), one
branch of sections per known name, a generic `json.dumps` block for
unknown names; all collected lines joined with newlines. -/
def render_markdown (name : String) (content : Dict) : String :=
  let heading := "# " ++ pyTitle (pyReplaceChar '_' ' ' name)
  let body : List String :=
    if name = "note" then renderNote content
    else if name = "flashcard" then renderFlashcard content
    else if name = "quiz" then renderQuiz content
    else if name = "study_plan" then renderStudyPlan content
    else if name = "document_summary" then renderDocumentSummary content
    else if name = "task" then renderTask content
    else if name = "research" then renderResearch content
    else ["\n``json\n", jsonDumps (.vdict content) 0, "\n```"]
  String.intercalate "\n" (heading :: body)

/-- The sentence splitting inside `generate_flashcards`
(`src/gemini_processor.py`): replace newlines by spaces, split on `'.'`,
strip each piece and keep the non-empty ones. -/
def sentencesOf (text : String) : List String :=
  ((pySplit '.' (pyReplaceChar '\n' ' ' text)).map pyStrip).filter (fun s => s ≠ "")

/-- One flashcard produced from sentence `s`: the dict
`{"question": "Explain: " + s[:60].strip() + "?", "answer": s}`. -/
def flashcardFor (s : String) : List (String × String) :=
  [("question", "Explain: " ++ pyStrip (pyTake 60 s) ++ "?"), ("answer", s)]

/-- Model of `generate_flashcards(text, n)` from `src/gemini_processor.py`: empty
(falsy) text returns the empty list; otherwise the loop
`for i in range(min(n, len(sentences)))` appends one question/answer
dict per sentence.  The final `json.dumps`/`json.loads` round-trip of
the source is the identity on this list of string dicts and the
`JSONDecodeError` branch is unreachable, so the model returns the
accumulated list. -/
def generate_flashcards (text : String) (n : Int) : List (List (String × String)) :=
  if text = "" then []
  else
    let sentences := sentencesOf text
    let k : Nat := (min n (Int.ofNat sentences.length)).toNat
    (List.range k).foldl (fun acc i => acc ++ [flashcardFor (sentences.getD i "")]) []

/-- The ordered fields of the section table in §4.3 of the
specification, per template name (spec-side definition). -/
def fieldsOf : String → List String
  | "note" => ["title", "key_points", "summary", "definitions", "examples", "questions"]
  | "flashcard" => ["question", "answer", "hint", "difficulty", "next_review_date"]
  | "quiz" => ["question", "options", "correct_answer", "explanation"]
  | "study_plan" =>
    ["weekly_goals", "subjects", "daily_targets", "resources_needed",
     "progress_percent", "notes"]
  | "document_summary" =>
    ["document_title", "overview", "key_highlights", "important_terms", "action_items"]
  | "task" => ["task", "priority", "deadline", "status", "notes"]
  | "research" => ["topic", "objective", "sources", "findings", "conclusion", "references"]
  | _ => []

/-- The section title `render_markdown` displays for a given template
name and field (from the source's `add_section` calls). -/
def sectionTitle : String → String → String
  | "note", "title" => "Topic / Title"
  | "note", "key_points" => "Key Points"
  | "note", "summary" => "Summary"
  | "note", "definitions" => "Definitions"
  | "note", "examples" => "Examples"
  | "note", "questions" => "Questions I Still Have"
  | "flashcard", "question" => "Question"
  | "flashcard", "answer" => "Answer"
  | "flashcard", "hint" => "Hint"
  | "flashcard", "difficulty" => "Difficulty"
  | "flashcard", "next_review_date" => "Next Review Date"
  | "quiz", "question" => "Question"
  | "quiz", "options" => "Options"
  | "quiz", "correct_answer" => "Correct Answer"
  | "quiz", "explanation" => "Explanation"
  | "study_plan", "weekly_goals" => "Weekly Goals"
  | "study_plan", "subjects" => "Subjects"
  | "study_plan", "daily_targets" => "Daily Targets"
  | "study_plan", "resources_needed" => "Resources Needed"
  | "study_plan", "progress_percent" => "Progress (%)"
  | "study_plan", "notes" => "Notes"
  | "document_summary", "document_title" => "Document Title"
  | "document_summary", "overview" => "Overview"
  | "document_summary", "key_highlights" => "Key Highlights"
  | "document_summary", "important_terms" => "Important Terms"
  | "document_summary", "action_items" => "Action Items / To-Do"
  | "task", "task" => "Task"
  | "task", "priority" => "Priority"
  | "task", "deadline" => "Deadline"
  | "task", "status" => "Status"
  | "task", "notes" => "Notes"
  | "research", "topic" => "Topic"
  | "research", "objective" => "Objective"
  | "research", "sources" => "Sources"
  | "research", "findings" => "Findings"
  | "research", "conclusion" => "Conclusion"
  | "research", "references" => "References"
  | _, _ => ""

/-- The default `render_markdown` passes to `content.get` for a given
template name and field (from the source's `add_section` calls). -/
def sectionDefault : String → String → Value
  | "note", "title" => .vstr ""
  | "note", "summary" => .vstr ""
  | "note", _ => .vlist []
  | "flashcard", _ => .vstr ""
  | "quiz", "options" => .vlist []
  | "quiz", _ => .vstr ""
  | "study_plan", "daily_targets" => .vdict []
  | "study_plan", "progress_percent" => .vnum 0
  | "study_plan", "notes" => .vstr ""
  | "study_plan", _ => .vlist []
  | "document_summary", "document_title" => .vstr ""
  | "document_summary", "overview" => .vstr ""
  | "document_summary", _ => .vlist []
  | "task", _ => .vstr ""
  | "research", "sources" => .vlist []
  | "research", "findings" => .vlist []
  | "research", "references" => .vlist []
  | "research", _ => .vstr ""
  | _, _ => .vnull

/-- A §4.3-shaped rendering (spec-side definition, for the refinement
theorem of the section order): the heading line followed by the
concatenation, over the table's fields in table order, of one
`add_section` block per field. -/
def renderSpec (name : String) (content : Dict) : String :=
  String.intercalate "\n"
    (("# " ++ pyTitle (pyReplaceChar '_' ' ' name)) ::
      (fieldsOf name).flatMap
        (fun f => addSection (sectionTitle name f) (pyGet content f (sectionDefault name f))))

/-! ### Heap model of the deep copy in `get_template`

`json.loads(json.dumps(base))` rebuilds the template from its
serialization, so every container object of the returned value is a
freshly allocated Python object.  To state the resulting non-aliasing
we model Python's object store explicitly: containers (lists, dicts)
live in an address-indexed heap, immutable scalars are immediate
values, and the copy is the function that rebuilds a pure `Value` out
of fresh heap cells. -/

/-- A heap-level Python value: scalars are immediate (they are immutable
in Python, so their identity is unobservable); lists and dicts are
references into the heap. -/
inductive HVal where
  | hstr (s : String)
  | hnum (n : Int)
  | hnull
  | href (a : Nat)

/-- A heap cell: the payload of one list or dict object. -/
inductive HCell where
  | clist (xs : List HVal)
  | cdict (kvs : List (String × HVal))

/-- The Python object store: a memory mapping addresses to allocated
cells, and the next fresh address. -/
structure Heap where
  mem : Nat → Option HCell
  next : Nat

/-- A heap is well formed when no address at or beyond `next` is
allocated. -/
def wfH (h : Heap) : Prop := ∀ a, h.next ≤ a → h.mem a = none

/-- Allocate a new cell at the next fresh address. -/
def alloc (h : Heap) (c : HCell) : Heap :=
  ⟨fun x => if x = h.next then some c else h.mem x, h.next + 1⟩

/-- Overwrite the cell stored at address `a` (the model of mutating a
list or dict object in place). -/
def hupdate (h : Heap) (a : Nat) (c : HCell) : Heap :=
  ⟨fun x => if x = a then some c else h.mem x, h.next⟩

mutual
/-- Rebuild the pure value `v` in the heap out of fresh cells — the
model of `json.loads(json.dumps(v))`. -/
def storeV : Value → Heap → HVal × Heap
  | .vstr s, h => (.hstr s, h)
  | .vnum n, h => (.hnum n, h)
  | .vnull, h => (.hnull, h)
  | .vlist xs, h =>
    let p := storeL xs h
    (.href p.2.next, alloc p.2 (.clist p.1))
  | .vdict kvs, h =>
    let p := storeD kvs h
    (.href p.2.next, alloc p.2 (.cdict p.1))
/-- Store every element of a list in sequence. -/
def storeL : List Value → Heap → List HVal × Heap
  | [], h => ([], h)
  | v :: vs, h =>
    let p := storeV v h
    let q := storeL vs p.2
    (p.1 :: q.1, q.2)
/-- Store every binding of a dict in sequence. -/
def storeD : List (String × Value) → Heap → List (String × HVal) × Heap
  | [], h => ([], h)
  | (k, v) :: vs, h =>
    let p := storeV v h
    let q := storeD vs p.2
    ((k, p.1) :: q.1, q.2)
end

/-- Read a heap value back into a pure `Value`, dereferencing at most
`fuel` levels of containers (structural recursion on the fuel, so the
definition evaluates by kernel reduction). -/
def readV (g : Heap) : Nat → HVal → Option Value
  | 0, v =>
    match v with
    | .hstr s => some (.vstr s)
    | .hnum n => some (.vnum n)
    | .hnull => some .vnull
    | .href _ => none
  | fuel + 1, v =>
    match v with
    | .hstr s => some (.vstr s)
    | .hnum n => some (.vnum n)
    | .hnull => some .vnull
    | .href a =>
      match g.mem a with
      | some (.clist ys) => (ys.mapM (readV g fuel)).map .vlist
      | some (.cdict ys) =>
        (ys.mapM (fun p => (readV g fuel p.2).map (fun v => (p.1, v)))).map .vdict
      | none => none

/-- The heap addresses reachable from a value within `fuel`
dereferences (the addresses of the objects the value is made of). -/
def reachV (g : Heap) : Nat → HVal → List Nat
  | 0, v =>
    match v with
    | .href a => [a]
    | _ => []
  | fuel + 1, v =>
    match v with
    | .href a =>
      a :: (match g.mem a with
            | some (.clist ys) => ys.flatMap (reachV g fuel)
            | some (.cdict ys) => ys.flatMap (fun p => reachV g fuel p.2)
            | none => [])
    | _ => []

mutual
/-- Container nesting depth of a pure value (fuel bound for `readV`). -/
def depthV : Value → Nat
  | .vstr _ => 0
  | .vnum _ => 0
  | .vnull => 0
  | .vlist xs => depthL xs + 1
  | .vdict kvs => depthD kvs + 1
/-- Maximal depth of the elements of a list. -/
def depthL : List Value → Nat
  | [] => 0
  | v :: vs => max (depthV v) (depthL vs)
/-- Maximal depth of the values of a dict. -/
def depthD : List (String × Value) → Nat
  | [] => 0
  | (_, v) :: vs => max (depthV v) (depthD vs)
end

/-- Heap-level `get_template`: look the name up in `TEMPLATES` and
rebuild the canonical dict from fresh heap cells (the
`json.loads(json.dumps(base))` copy). -/
def get_template_heap (name : String) (h : Heap) : Option (HVal × Heap) :=
  (dlookup TEMPLATES name).map (fun base => storeV (.vdict base) h)

/-! ### Association-list lemmas -/

theorem dlookup_eq_none_iff {α : Type} (l : List (String × α)) (k : String) :
    dlookup l k = none ↔ k ∉ l.map Prod.fst := by
  induction l with
  | nil => simp [dlookup]
  | cons p rest ih =>
    obtain ⟨k', v'⟩ := p
    by_cases hk : k' = k
    · subst hk
      simp [dlookup]
    · simp [dlookup, hk, ih, Ne.symm hk]

theorem dlookup_isSome_of_mem {α : Type} (l : List (String × α)) (k : String)
    (hk : k ∈ l.map Prod.fst) : ∃ v, dlookup l k = some v := by
  cases h : dlookup l k with
  | none => exact absurd ((dlookup_eq_none_iff l k).mp h) (not_not_intro hk)
  | some v => exact ⟨v, rfl⟩

theorem mem_of_dlookup_eq_some {α : Type} {l : List (String × α)} {k : String} {v : α}
    (h : dlookup l k = some v) : k ∈ l.map Prod.fst := by
  by_contra hk
  rw [(dlookup_eq_none_iff l k).mpr hk] at h
  exact Option.noConfusion h

theorem dlookup_append_of_none {α : Type} (l l' : List (String × α)) (k : String)
    (h : dlookup l k = none) : dlookup (l ++ l') k = dlookup l' k := by
  induction l with
  | nil => rfl
  | cons p rest ih =>
    obtain ⟨k', v'⟩ := p
    by_cases hk : k' = k
    · simp [dlookup, hk] at h
    · simp only [dlookup, hk, if_false, List.cons_append] at h ⊢
      exact ih h

theorem setEntry_hit (k : String) (v : Value) (k' : String) (v' : Value) (hk : k' = k) :
    setEntry k v (k', v') = (k, v) := by
  simp [setEntry, hk]

theorem setEntry_miss (k : String) (v : Value) (k' : String) (v' : Value) (hk : ¬ k' = k) :
    setEntry k v (k', v') = (k', v') := by
  simp [setEntry, hk]

theorem dlookup_map_setEntry_self (d : Dict) (k : String) (v : Value)
    (hs : (dlookup d k).isSome) :
    dlookup (d.map (setEntry k v)) k = some v := by
  induction d with
  | nil => exact Bool.noConfusion hs
  | cons p rest ih =>
    obtain ⟨k', v'⟩ := p
    by_cases hk : k' = k
    · rw [List.map_cons, setEntry_hit k v k' v' hk]
      simp [dlookup]
    · rw [List.map_cons, setEntry_miss k v k' v' hk]
      have hs' : (dlookup rest k).isSome := by
        simpa [dlookup, hk] using hs
      simp only [dlookup]
      rw [if_neg hk]
      exact ih hs'

theorem dlookup_map_setEntry_ne (d : Dict) (k k' : String) (v : Value) (hne : k' ≠ k) :
    dlookup (d.map (setEntry k v)) k' = dlookup d k' := by
  induction d with
  | nil => rfl
  | cons p rest ih =>
    obtain ⟨k0, v0⟩ := p
    by_cases hk : k0 = k
    · subst hk
      rw [List.map_cons, setEntry_hit k0 v k0 v0 rfl]
      simp only [dlookup]
      rw [if_neg (fun h => hne h.symm), if_neg (fun h => hne h.symm)]
      exact ih
    · rw [List.map_cons, setEntry_miss k v k0 v0 hk]
      simp only [dlookup]
      by_cases hk' : k0 = k'
      · rw [if_pos hk', if_pos hk']
      · rw [if_neg hk', if_neg hk']
        exact ih

theorem dlookup_append_single_ne (d : Dict) (k k' : String) (v : Value) (hne : k' ≠ k) :
    dlookup (d ++ [(k, v)]) k' = dlookup d k' := by
  induction d with
  | nil =>
    rw [List.nil_append]
    simp only [dlookup]
    rw [if_neg (fun h => hne h.symm)]
  | cons p rest ih =>
    obtain ⟨k0, v0⟩ := p
    simp only [List.cons_append, dlookup, List.append_eq]
    rw [ih]

/-- Setting key `k` makes a later lookup of `k` return the new value. -/
theorem dlookup_dictSet_self (d : Dict) (k : String) (v : Value) :
    dlookup (dictSet d k v) k = some v := by
  unfold dictSet
  by_cases hs : (dlookup d k).isSome
  · simp only [hs, if_true]
    exact dlookup_map_setEntry_self d k v hs
  · rw [Option.not_isSome_iff_eq_none] at hs
    simp only [hs, Option.isSome_none, Bool.false_eq_true, if_false]
    rw [dlookup_append_of_none d _ k hs]
    simp [dlookup]

/-- Setting key `k` leaves the lookup of any other key unchanged. -/
theorem dlookup_dictSet_ne (d : Dict) (k k' : String) (v : Value) (hne : k' ≠ k) :
    dlookup (dictSet d k v) k' = dlookup d k' := by
  unfold dictSet
  by_cases hs : (dlookup d k).isSome
  · simp only [hs, if_true]
    exact dlookup_map_setEntry_ne d k k' v hne
  · rw [Option.not_isSome_iff_eq_none] at hs
    simp only [hs, Option.isSome_none, Bool.false_eq_true, if_false]
    exact dlookup_append_single_ne d k k' v hne

/-- The open-extension fold of `instantiate`. -/
def overlayFold (vs : Dict) (t : Dict) : Dict :=
  vs.foldl (fun t kv => dictSet t kv.1 kv.2) t

theorem overlayFold_cons (k : String) (v : Value) (rest : Dict) (t : Dict) :
    overlayFold ((k, v) :: rest) t = overlayFold rest (dictSet t k v) := rfl

theorem dlookup_overlayFold_not_mem (vs : Dict) (t : Dict) (k : String)
    (hk : k ∉ vs.map Prod.fst) :
    dlookup (overlayFold vs t) k = dlookup t k := by
  induction vs generalizing t with
  | nil => rfl
  | cons p rest ih =>
    obtain ⟨k0, v0⟩ := p
    simp only [List.map_cons, List.mem_cons, not_or] at hk
    rw [overlayFold_cons, ih (dictSet t k0 v0) hk.2]
    exact dlookup_dictSet_ne t k0 k v0 hk.1

theorem dlookup_overlayFold_mem (vs : Dict) (t : Dict) (k : String) (v : Value)
    (hnd : (vs.map Prod.fst).Nodup) (hk : dlookup vs k = some v) :
    dlookup (overlayFold vs t) k = some v := by
  induction vs generalizing t with
  | nil => exact Option.noConfusion hk
  | cons p rest ih =>
    obtain ⟨k0, v0⟩ := p
    simp only [List.map_cons, List.nodup_cons] at hnd
    rw [overlayFold_cons]
    by_cases hkk : k0 = k
    · subst hkk
      have hk' : some v0 = some v := by simpa [dlookup] using hk
      rw [dlookup_overlayFold_not_mem rest (dictSet t k0 v0) k0 hnd.1,
        dlookup_dictSet_self t k0 v0]
      exact hk'
    · have hk' : dlookup rest k = some v := by simpa [dlookup, hkk] using hk
      exact ih (dictSet t k0 v0) hnd.2 hk'

theorem get_template_ok_of_mem (name : String) (hname : name ∈ templateNames) :
    ∃ tpl, get_template name = .ok tpl := by
  obtain ⟨tpl, htpl⟩ := dlookup_isSome_of_mem TEMPLATES name hname
  exact ⟨tpl, by simp [get_template, htpl]⟩

/-- Claim C1 (open-extension law): for every one of the seven known
template names and every overlay dict (whose keys are distinct, as they
are in a Python dict), every key present in the overlay appears in the
result of `instantiate(name, overlay)` bound to exactly the overlay's
value, whether or not that key exists in the template's defaults. -/
theorem claim_C1_instantiate_open_extension (name : String)
    (hname : name ∈ templateNames) (vs : Dict) (hnd : (vs.map Prod.fst).Nodup)
    (k : String) (v : Value) (hk : dlookup vs k = some v) :
    ∃ r, instantiate name (some vs) = .ok r ∧ dlookup r k = some v := by
  obtain ⟨tpl, htpl⟩ := get_template_ok_of_mem name hname
  cases vs with
  | nil => exact Option.noConfusion hk
  | cons p rest =>
    refine ⟨overlayFold (p :: rest) tpl, ?_, ?_⟩
    · simp [instantiate, htpl, overlayFold]
    · exact dlookup_overlayFold_mem (p :: rest) tpl k v hnd hk

/-- Witness for claim C1: instantiating "note" with an overlay that
overwrites a default field and adds a brand-new one. -/
theorem claim_C1_witness :
    ("note" ∈ templateNames) ∧
    ((([("title", Value.vstr "X"), ("custom", Value.vstr "Y")] : Dict).map Prod.fst).Nodup) ∧
    (dlookup [("title", Value.vstr "X"), ("custom", Value.vstr "Y")] "custom" =
      some (Value.vstr "Y")) ∧
    (∃ r, instantiate "note" (some [("title", Value.vstr "X"), ("custom", Value.vstr "Y")]) =
        .ok r ∧ dlookup r "custom" = some (Value.vstr "Y")) :=
  ⟨by decide, by decide, rfl,
    claim_C1_instantiate_open_extension "note" (by decide)
      [("title", Value.vstr "X"), ("custom", Value.vstr "Y")] (by decide)
      "custom" (Value.vstr "Y") rfl⟩

/-- Claim C2: the empty overlay is a right identity — for every template
name, `instantiate(name, {})` and `instantiate(name)` (absent overlay)
are structurally equal to `get_template(name)`; in particular this
holds for all seven known names. -/
theorem claim_C2_instantiate_empty_identity (name : String) :
    instantiate name (some []) = get_template name ∧
    instantiate name none = get_template name := by
  cases h : get_template name <;> simp [instantiate, h]

/-- Claim C6: `get_template` (and hence `instantiate`) fails, with the
`Unknown template` error, if and only if the name is not one of the
seven known identifiers; for known names both always succeed, and
`instantiate` has no other error condition. -/
theorem claim_C6_unknown_template_error (name : String) (values : Option Dict) :
    (get_template name = .error ("Unknown template: " ++ name) ↔ name ∉ templateNames) ∧
    ((∃ t, get_template name = .ok t) ↔ name ∈ templateNames) ∧
    (instantiate name values = .error ("Unknown template: " ++ name) ↔
      name ∉ templateNames) ∧
    ((∃ t, instantiate name values = .ok t) ↔ name ∈ templateNames) := by
  cases hl : dlookup TEMPLATES name with
  | none =>
    have hmem : name ∉ templateNames := (dlookup_eq_none_iff TEMPLATES name).mp hl
    have hget : get_template name = .error ("Unknown template: " ++ name) := by
      simp [get_template, hl]
    refine ⟨⟨fun _ => hmem, fun _ => hget⟩, by simp only [hget]; simp; exact hmem, ?_, ?_⟩
    · exact ⟨fun _ => hmem, fun _ => by simp [instantiate, hget]⟩
    · simp [instantiate, hget, hmem]
  | some tpl =>
    have hmem : name ∈ templateNames := mem_of_dlookup_eq_some hl
    have hget : get_template name = .ok tpl := by simp [get_template, hl]
    refine ⟨by simp [hget, hmem], ⟨fun _ => hmem, fun _ => ⟨tpl, hget⟩⟩, ?_, ?_⟩
    · cases values with
      | none => simp [instantiate, hget, hmem]
      | some vs => cases vs <;> simp [instantiate, hget, hmem]
    · cases values with
      | none => simp [instantiate, hget, hmem]
      | some vs => cases vs <;> simp [instantiate, hget, hmem]

/-! ### Renderer theorems -/

theorem mem_templateNames_iff (name : String) :
    name ∈ templateNames ↔
      name = "note" ∨ name = "flashcard" ∨ name = "quiz" ∨ name = "study_plan" ∨
      name = "document_summary" ∨ name = "task" ∨ name = "research" := by
  simp [templateNames, TEMPLATES]

theorem render_markdown_note (c : Dict) : render_markdown "note" c =
    String.intercalate "\n"
      (("# " ++ pyTitle (pyReplaceChar '_' ' ' "note")) :: renderNote c) := rfl

theorem render_markdown_flashcard (c : Dict) : render_markdown "flashcard" c =
    String.intercalate "\n"
      (("# " ++ pyTitle (pyReplaceChar '_' ' ' "flashcard")) :: renderFlashcard c) := rfl

theorem render_markdown_quiz (c : Dict) : render_markdown "quiz" c =
    String.intercalate "\n"
      (("# " ++ pyTitle (pyReplaceChar '_' ' ' "quiz")) :: renderQuiz c) := rfl

theorem render_markdown_study_plan (c : Dict) : render_markdown "study_plan" c =
    String.intercalate "\n"
      (("# " ++ pyTitle (pyReplaceChar '_' ' ' "study_plan")) :: renderStudyPlan c) := rfl

theorem render_markdown_document_summary (c : Dict) : render_markdown "document_summary" c =
    String.intercalate "\n"
      (("# " ++ pyTitle (pyReplaceChar '_' ' ' "document_summary")) ::
        renderDocumentSummary c) := rfl

theorem render_markdown_task (c : Dict) : render_markdown "task" c =
    String.intercalate "\n"
      (("# " ++ pyTitle (pyReplaceChar '_' ' ' "task")) :: renderTask c) := rfl

theorem render_markdown_research (c : Dict) : render_markdown "research" c =
    String.intercalate "\n"
      (("# " ++ pyTitle (pyReplaceChar '_' ' ' "research")) :: renderResearch c) := rfl

theorem render_markdown_eq_renderSpec (name : String) (hname : name ∈ templateNames)
    (c : Dict) : render_markdown name c = renderSpec name c := by
  rw [mem_templateNames_iff] at hname
  rcases hname with h | h | h | h | h | h | h <;> subst h
  · rw [render_markdown_note]
    unfold renderSpec
    congr 1
    congr 1
    rw [show fieldsOf "note" = ["title", "key_points", "summary", "definitions", "examples", "questions"] from rfl]
    simp only [List.flatMap_cons, List.flatMap_nil, List.append_nil, renderNote,
      List.append_assoc]
    rfl
  · rw [render_markdown_flashcard]
    unfold renderSpec
    congr 1
    congr 1
    rw [show fieldsOf "flashcard" = ["question", "answer", "hint", "difficulty", "next_review_date"] from rfl]
    simp only [List.flatMap_cons, List.flatMap_nil, List.append_nil, renderFlashcard,
      List.append_assoc]
    rfl
  · rw [render_markdown_quiz]
    unfold renderSpec
    congr 1
    congr 1
    rw [show fieldsOf "quiz" = ["question", "options", "correct_answer", "explanation"] from rfl]
    simp only [List.flatMap_cons, List.flatMap_nil, List.append_nil, renderQuiz,
      List.append_assoc]
    rfl
  · rw [render_markdown_study_plan]
    unfold renderSpec
    congr 1
    congr 1
    rw [show fieldsOf "study_plan" = ["weekly_goals", "subjects", "daily_targets", "resources_needed", "progress_percent", "notes"] from rfl]
    simp only [List.flatMap_cons, List.flatMap_nil, List.append_nil, renderStudyPlan,
      List.append_assoc]
    rfl
  · rw [render_markdown_document_summary]
    unfold renderSpec
    congr 1
    congr 1
    rw [show fieldsOf "document_summary" = ["document_title", "overview", "key_highlights", "important_terms", "action_items"] from rfl]
    simp only [List.flatMap_cons, List.flatMap_nil, List.append_nil, renderDocumentSummary,
      List.append_assoc]
    rfl
  · rw [render_markdown_task]
    unfold renderSpec
    congr 1
    congr 1
    rw [show fieldsOf "task" = ["task", "priority", "deadline", "status", "notes"] from rfl]
    simp only [List.flatMap_cons, List.flatMap_nil, List.append_nil, renderTask,
      List.append_assoc]
    rfl
  · rw [render_markdown_research]
    unfold renderSpec
    congr 1
    congr 1
    rw [show fieldsOf "research" = ["topic", "objective", "sources", "findings", "conclusion", "references"] from rfl]
    simp only [List.flatMap_cons, List.flatMap_nil, List.append_nil, renderResearch,
      List.append_assoc]
    rfl

theorem flatMap_congr_mem {α β : Type} (l : List α) (f g : α → List β)
    (h : ∀ a ∈ l, f a = g a) : l.flatMap f = l.flatMap g := by
  induction l with
  | nil => rfl
  | cons x xs ih =>
    simp only [List.flatMap_cons]
    rw [h x (List.mem_cons_self x xs), ih (fun a ha => h a (List.mem_cons_of_mem x ha))]

theorem renderSpec_agree (name : String) (c1 c2 : Dict)
    (h : ∀ f ∈ fieldsOf name, dlookup c1 f = dlookup c2 f) :
    renderSpec name c1 = renderSpec name c2 := by
  unfold renderSpec
  have he : (fieldsOf name).flatMap
        (fun f => addSection (sectionTitle name f) (pyGet c1 f (sectionDefault name f))) =
      (fieldsOf name).flatMap
        (fun f => addSection (sectionTitle name f) (pyGet c2 f (sectionDefault name f))) :=
    flatMap_congr_mem _ _ _ (fun f hf => by unfold pyGet; rw [h f hf])
  rw [he]

/-- Claim C4: for each of the seven known template names,
`render_markdown(name, content)` consists of a single heading line
derived from the name (underscores to spaces, title-cased) followed by
the per-field sections exactly in the order given by the §4.3 table
(`renderSpec` is that table-ordered rendering). -/
theorem claim_C4_render_section_order (name : String) (hname : name ∈ templateNames)
    (c : Dict) : render_markdown name c = renderSpec name c :=
  render_markdown_eq_renderSpec name hname c

/-- Witness for claim C4 at the name "quiz" and a concrete content. -/
theorem claim_C4_witness :
    ("quiz" ∈ templateNames) ∧
    render_markdown "quiz" [("question", Value.vstr "2+2?")] =
      renderSpec "quiz" [("question", Value.vstr "2+2?")] :=
  ⟨by decide, claim_C4_render_section_order "quiz" (by decide) [("question", Value.vstr "2+2?")]⟩

/-- Claim C10 (noninterference of open-extension fields): for each of
the seven known template names, the rendered report depends only on the
fields of the §4.3 table — two contents that agree on every listed
field render identically, so keys added through open extension never
appear in the output. -/
theorem claim_C10_render_noninterference (name : String) (hname : name ∈ templateNames)
    (c1 c2 : Dict) (h : ∀ f ∈ fieldsOf name, dlookup c1 f = dlookup c2 f) :
    render_markdown name c1 = render_markdown name c2 := by
  rw [render_markdown_eq_renderSpec name hname c1, render_markdown_eq_renderSpec name hname c2]
  exact renderSpec_agree name c1 c2 h

/-- Witness for claim C10: adding an extra key to a flashcard's content
does not change the rendered output. -/
theorem claim_C10_witness :
    ("flashcard" ∈ templateNames) ∧
    (∀ f ∈ fieldsOf "flashcard",
      dlookup [("question", Value.vstr "Q")] f =
        dlookup [("question", Value.vstr "Q"), ("extra", Value.vstr "SECRET")] f) ∧
    render_markdown "flashcard" [("question", Value.vstr "Q")] =
      render_markdown "flashcard" [("question", Value.vstr "Q"), ("extra", Value.vstr "SECRET")] :=
  ⟨by decide, by intro f hf; fin_cases hf <;> rfl,
    claim_C10_render_noninterference "flashcard" (by decide)
      [("question", Value.vstr "Q")] [("question", Value.vstr "Q"), ("extra", Value.vstr "SECRET")]
      (by intro f hf; fin_cases hf <;> rfl)⟩

/-- Claim C7 (scenario): rendering
`instantiate("flashcard", {"question": "Q?", "answer": "A."})` yields
the report whose Question section holds "Q?", Answer section holds
"A.", Hint section is empty, Difficulty section holds the default
"Medium" and Next Review Date section is empty (the full output string
is computed exactly). -/
theorem claim_C7_flashcard_scenario :
    (instantiate "flashcard"
        (some [("question", Value.vstr "Q?"), ("answer", Value.vstr "A.")])).map
      (render_markdown "flashcard") =
    .ok ("# Flashcard\n\n**Question**\n\nQ?\n\n**Answer**\n\nA.\n\n**Hint**\n\n\n\n" ++
      "**Difficulty**\n\nMedium\n\n**Next Review Date**\n\n") := rfl

/-- Counterexample for claim C5: the mapping rule does not produce
bullet lines of the literal shape "key: value" — the key is wrapped in
bold markers, so the line for `{"a": "b"}` is "- **a**: b", not
"- a: b". -/
theorem claim_C5_counterexample :
    sectionBody (.vdict [("a", Value.vstr "b")]) = ["- **a**: b"] ∧
    sectionBody (.vdict [("a", Value.vstr "b")]) ≠ ["- a: b"] :=
  ⟨rfl, by decide⟩

/-- Claim C5 as amended: a sequence yields one bullet line per element
and an empty sequence yields exactly one empty placeholder bullet; a
mapping yields one bullet line per key formatted as `- **key**: value`
(the key in bold); a string yields itself, a number its decimal text,
and `None` the empty string. -/
theorem claim_C5_section_rendering_rules (xs : List Value)
    (kvs : List (String × Value)) (s : String) (n : Int) :
    (sectionBody (.vlist xs) =
      if xs.isEmpty then ["- "] else xs.map (fun item => "- " ++ pyStr item)) ∧
    (sectionBody (.vdict kvs) = kvs.map (fun p => "- **" ++ p.1 ++ "**: " ++ pyStr p.2)) ∧
    sectionBody (.vstr s) = [s] ∧
    sectionBody (.vnum n) = [toString n] ∧
    sectionBody .vnull = [""] := by
  refine ⟨?_, rfl, rfl, rfl, rfl⟩
  cases xs with
  | nil => rfl
  | cons x rest => rfl

/-! ### Flashcard-generator theorems -/

/-- Claim C8: for every count `n`, `generate_flashcards` on the empty
string returns the empty list (the model is a total function, so no
error is possible; the source returns before any fallible step). -/
theorem claim_C8_generate_flashcards_empty (n : Int) :
    generate_flashcards "" n = [] := rfl

theorem foldl_append_singleton {α β : Type} (l : List α) (f : α → β) (acc : List β) :
    l.foldl (fun acc i => acc ++ [f i]) acc = acc ++ l.map f := by
  induction l generalizing acc with
  | nil => simp
  | cons x xs ih => simp [ih]

/-- Claim C9: for non-empty text and count `n ≥ 0`,
`generate_flashcards(text, n)` returns exactly `min n S` dicts, where
`S` counts the non-empty stripped segments of the text (newlines
replaced by spaces, split on '.'); the i-th dict has exactly the keys
"question" and "answer", the answer being the i-th segment and the
question being "Explain: " plus the stripped first 60 characters of
that segment plus "?". -/
theorem claim_C9_generate_flashcards_shape (text : String) (ht : text ≠ "")
    (n : Int) (hn : 0 ≤ n) :
    (generate_flashcards text n).length = min n.toNat (sentencesOf text).length ∧
    ∀ i, i < (generate_flashcards text n).length →
      (generate_flashcards text n).getD i [] =
        [("question",
           "Explain: " ++ pyStrip (pyTake 60 ((sentencesOf text).getD i "")) ++ "?"),
         ("answer", (sentencesOf text).getD i "")] := by
  have hgen : generate_flashcards text n =
      (List.range ((min n (Int.ofNat (sentencesOf text).length)).toNat)).map
        (fun i => flashcardFor ((sentencesOf text).getD i "")) := by
    unfold generate_flashcards
    rw [if_neg ht]
    exact foldl_append_singleton _ _ []
  constructor
  · rw [hgen, List.length_map, List.length_range]
    simp only [Int.ofNat_eq_natCast]
    omega
  · intro i hi
    rw [hgen] at hi ⊢
    rw [List.length_map, List.length_range] at hi
    rw [List.getD_eq_getElem _ _ (by simpa using hi)]
    simp [flashcardFor]

/-- Witness for claim C9 on a concrete three-sentence text. -/
theorem claim_C9_witness :
    ("One. Two. Three." ≠ "") ∧ ((0 : Int) ≤ 2) ∧
    ((generate_flashcards "One. Two. Three." 2).length =
        min (2 : Int).toNat (sentencesOf "One. Two. Three.").length ∧
      ∀ i, i < (generate_flashcards "One. Two. Three." 2).length →
        (generate_flashcards "One. Two. Three." 2).getD i [] =
          [("question",
             "Explain: " ++
               pyStrip (pyTake 60 ((sentencesOf "One. Two. Three.").getD i "")) ++ "?"),
           ("answer", (sentencesOf "One. Two. Three.").getD i "")]) :=
  ⟨by decide, by decide,
    claim_C9_generate_flashcards_shape "One. Two. Three." (by decide) 2 (by decide)⟩

/-! ### Heap lemmas: the copy allocates only fresh addresses -/

mutual
theorem storeV_next_mono : ∀ (v : Value) (h : Heap), h.next ≤ (storeV v h).2.next
  | .vstr _, _ => Nat.le_refl _
  | .vnum _, _ => Nat.le_refl _
  | .vnull, _ => Nat.le_refl _
  | .vlist xs, h => by
    have ih := storeL_next_mono xs h
    simp only [storeV, alloc]
    omega
  | .vdict kvs, h => by
    have ih := storeD_next_mono kvs h
    simp only [storeV, alloc]
    omega
theorem storeL_next_mono : ∀ (vs : List Value) (h : Heap), h.next ≤ (storeL vs h).2.next
  | [], _ => Nat.le_refl _
  | v :: vs, h => by
    have ih1 := storeV_next_mono v h
    have ih2 := storeL_next_mono vs (storeV v h).2
    simp only [storeL]
    omega
theorem storeD_next_mono :
    ∀ (vs : List (String × Value)) (h : Heap), h.next ≤ (storeD vs h).2.next
  | [], _ => Nat.le_refl _
  | (_, v) :: vs, h => by
    have ih1 := storeV_next_mono v h
    have ih2 := storeD_next_mono vs (storeV v h).2
    simp only [storeD]
    omega
end

mutual
theorem storeV_frame : ∀ (v : Value) (h : Heap) (a : Nat),
    (a < h.next ∨ (storeV v h).2.next ≤ a) → (storeV v h).2.mem a = h.mem a
  | .vstr _, _, _, _ => rfl
  | .vnum _, _, _, _ => rfl
  | .vnull, _, _, _ => rfl
  | .vlist xs, h, a, ha => by
    have m := storeL_next_mono xs h
    have ih := storeL_frame xs h a
    simp only [storeV, alloc] at ha ⊢
    rw [if_neg (by omega : ¬ a = (storeL xs h).2.next)]
    exact ih (by omega)
  | .vdict kvs, h, a, ha => by
    have m := storeD_next_mono kvs h
    have ih := storeD_frame kvs h a
    simp only [storeV, alloc] at ha ⊢
    rw [if_neg (by omega : ¬ a = (storeD kvs h).2.next)]
    exact ih (by omega)
theorem storeL_frame : ∀ (vs : List Value) (h : Heap) (a : Nat),
    (a < h.next ∨ (storeL vs h).2.next ≤ a) → (storeL vs h).2.mem a = h.mem a
  | [], _, _, _ => rfl
  | v :: vs, h, a, ha => by
    have m1 := storeV_next_mono v h
    have m2 := storeL_next_mono vs (storeV v h).2
    have ih1 := storeV_frame v h a
    have ih2 := storeL_frame vs (storeV v h).2 a
    simp only [storeL] at ha ⊢
    rw [ih2 (by omega), ih1 (by omega)]
theorem storeD_frame : ∀ (vs : List (String × Value)) (h : Heap) (a : Nat),
    (a < h.next ∨ (storeD vs h).2.next ≤ a) → (storeD vs h).2.mem a = h.mem a
  | [], _, _, _ => rfl
  | (_, v) :: vs, h, a, ha => by
    have m1 := storeV_next_mono v h
    have m2 := storeD_next_mono vs (storeV v h).2
    have ih1 := storeV_frame v h a
    have ih2 := storeD_frame vs (storeV v h).2 a
    simp only [storeD] at ha ⊢
    rw [ih2 (by omega), ih1 (by omega)]
end

theorem storeV_wf (v : Value) (h : Heap) (hw : wfH h) : wfH (storeV v h).2 :=
  fun a ha => by
    rw [storeV_frame v h a (Or.inr ha)]
    exact hw a (Nat.le_trans (storeV_next_mono v h) ha)

theorem storeL_wf (vs : List Value) (h : Heap) (hw : wfH h) : wfH (storeL vs h).2 :=
  fun a ha => by
    rw [storeL_frame vs h a (Or.inr ha)]
    exact hw a (Nat.le_trans (storeL_next_mono vs h) ha)

theorem storeD_wf (vs : List (String × Value)) (h : Heap) (hw : wfH h) :
    wfH (storeD vs h).2 :=
  fun a ha => by
    rw [storeD_frame vs h a (Or.inr ha)]
    exact hw a (Nat.le_trans (storeD_next_mono vs h) ha)

/-- Transfer the agreement window from the allocating store to the heap
of the stored children. -/
theorem hg_list_step (xs : List Value) (h : Heap) (g : Heap)
    (hg : ∀ a, h.next ≤ a → a < (storeV (.vlist xs) h).2.next →
      g.mem a = (storeV (.vlist xs) h).2.mem a) :
    ∀ a, h.next ≤ a → a < (storeL xs h).2.next → g.mem a = (storeL xs h).2.mem a := by
  intro a ha1 ha2
  have := hg a ha1 (by simp only [storeV, alloc]; omega)
  simp only [storeV, alloc] at this
  rwa [if_neg (by omega : ¬ a = (storeL xs h).2.next)] at this

/-- Transfer the agreement window from the allocating store to the heap
of the stored dict entries. -/
theorem hg_dict_step (kvs : List (String × Value)) (h : Heap) (g : Heap)
    (hg : ∀ a, h.next ≤ a → a < (storeV (.vdict kvs) h).2.next →
      g.mem a = (storeV (.vdict kvs) h).2.mem a) :
    ∀ a, h.next ≤ a → a < (storeD kvs h).2.next → g.mem a = (storeD kvs h).2.mem a := by
  intro a ha1 ha2
  have := hg a ha1 (by simp only [storeV, alloc]; omega)
  simp only [storeV, alloc] at this
  rwa [if_neg (by omega : ¬ a = (storeD kvs h).2.next)] at this

/-- The freshly allocated top cell of a stored list is visible through
any heap that agrees on the window of the store. -/
theorem hg_list_cell (xs : List Value) (h : Heap) (g : Heap)
    (hg : ∀ a, h.next ≤ a → a < (storeV (.vlist xs) h).2.next →
      g.mem a = (storeV (.vlist xs) h).2.mem a) :
    g.mem (storeL xs h).2.next = some (.clist (storeL xs h).1) := by
  have hm := storeL_next_mono xs h
  have := hg (storeL xs h).2.next hm (by simp only [storeV, alloc]; omega)
  simp only [storeV, alloc] at this
  simpa using this

/-- The freshly allocated top cell of a stored dict is visible through
any heap that agrees on the window of the store. -/
theorem hg_dict_cell (kvs : List (String × Value)) (h : Heap) (g : Heap)
    (hg : ∀ a, h.next ≤ a → a < (storeV (.vdict kvs) h).2.next →
      g.mem a = (storeV (.vdict kvs) h).2.mem a) :
    g.mem (storeD kvs h).2.next = some (.cdict (storeD kvs h).1) := by
  have hm := storeD_next_mono kvs h
  have := hg (storeD kvs h).2.next hm (by simp only [storeV, alloc]; omega)
  simp only [storeV, alloc] at this
  simpa using this

mutual
/-- Reading a stored value back, through any heap that agrees with the
store's result on the freshly written window, recovers the value. -/
theorem readV_store : ∀ (v : Value) (h : Heap), wfH h → ∀ (g : Heap),
    (∀ a, h.next ≤ a → a < (storeV v h).2.next → g.mem a = (storeV v h).2.mem a) →
    ∀ fuel, depthV v ≤ fuel → readV g fuel (storeV v h).1 = some v
  | .vstr _, _, _, _, _, fuel, _ => by cases fuel <;> rfl
  | .vnum _, _, _, _, _, fuel, _ => by cases fuel <;> rfl
  | .vnull, _, _, _, _, fuel, _ => by cases fuel <;> rfl
  | .vlist xs, h, hw, g, hg, fuel, hf => by
    cases fuel with
    | zero => simp [depthV] at hf
    | succ f =>
      have hf' : depthL xs ≤ f := by simp only [depthV] at hf; omega
      have hcell := hg_list_cell xs h g hg
      have hrec := readL_store xs h hw g (hg_list_step xs h g hg) f hf'
      simp only [storeV]
      rw [readV, hcell]
      show Option.map Value.vlist (List.mapM (readV g f) (storeL xs h).1) =
        some (Value.vlist xs)
      rw [hrec]
      rfl
  | .vdict kvs, h, hw, g, hg, fuel, hf => by
    cases fuel with
    | zero => simp [depthV] at hf
    | succ f =>
      have hf' : depthD kvs ≤ f := by simp only [depthV] at hf; omega
      have hcell := hg_dict_cell kvs h g hg
      have hrec := readD_store kvs h hw g (hg_dict_step kvs h g hg) f hf'
      simp only [storeV]
      rw [readV, hcell]
      show Option.map Value.vdict
          (List.mapM (fun p => Option.map (fun v => (p.1, v)) (readV g f p.2))
            (storeD kvs h).1) =
        some (Value.vdict kvs)
      rw [hrec]
      rfl
/-- List version of `readV_store`. -/
theorem readL_store : ∀ (vs : List Value) (h : Heap), wfH h → ∀ (g : Heap),
    (∀ a, h.next ≤ a → a < (storeL vs h).2.next → g.mem a = (storeL vs h).2.mem a) →
    ∀ fuel, depthL vs ≤ fuel → (storeL vs h).1.mapM (readV g fuel) = some vs
  | [], _, _, _, _, _, _ => rfl
  | v :: vs, h, hw, g, hg, fuel, hf => by
    have m1 := storeV_next_mono v h
    have m2 := storeL_next_mono vs (storeV v h).2
    have hf1 : depthV v ≤ fuel := by simp only [depthL] at hf; omega
    have hf2 : depthL vs ≤ fuel := by simp only [depthL] at hf; omega
    simp only [storeL] at hg ⊢
    have hg1 : ∀ a, h.next ≤ a → a < (storeV v h).2.next →
        g.mem a = (storeV v h).2.mem a := by
      intro a ha1 ha2
      rw [hg a ha1 (by omega)]
      exact storeL_frame vs (storeV v h).2 a (Or.inl ha2)
    have hg2 : ∀ a, (storeV v h).2.next ≤ a → a < (storeL vs (storeV v h).2).2.next →
        g.mem a = (storeL vs (storeV v h).2).2.mem a := by
      intro a ha1 ha2
      exact hg a (by omega) ha2
    have r1 := readV_store v h hw g hg1 fuel hf1
    have r2 := readL_store vs (storeV v h).2 (storeV_wf v h hw) g hg2 fuel hf2
    rw [List.mapM_cons, r1, r2]
    rfl
/-- Dict version of `readV_store`. -/
theorem readD_store : ∀ (vs : List (String × Value)) (h : Heap), wfH h → ∀ (g : Heap),
    (∀ a, h.next ≤ a → a < (storeD vs h).2.next → g.mem a = (storeD vs h).2.mem a) →
    ∀ fuel, depthD vs ≤ fuel →
      (storeD vs h).1.mapM (fun p => (readV g fuel p.2).map (fun v => (p.1, v))) = some vs
  | [], _, _, _, _, _, _ => rfl
  | (k, v) :: vs, h, hw, g, hg, fuel, hf => by
    have m1 := storeV_next_mono v h
    have m2 := storeD_next_mono vs (storeV v h).2
    have hf1 : depthV v ≤ fuel := by simp only [depthD] at hf; omega
    have hf2 : depthD vs ≤ fuel := by simp only [depthD] at hf; omega
    simp only [storeD] at hg ⊢
    have hg1 : ∀ a, h.next ≤ a → a < (storeV v h).2.next →
        g.mem a = (storeV v h).2.mem a := by
      intro a ha1 ha2
      rw [hg a ha1 (by omega)]
      exact storeD_frame vs (storeV v h).2 a (Or.inl ha2)
    have hg2 : ∀ a, (storeV v h).2.next ≤ a → a < (storeD vs (storeV v h).2).2.next →
        g.mem a = (storeD vs (storeV v h).2).2.mem a := by
      intro a ha1 ha2
      exact hg a (by omega) ha2
    have r1 := readV_store v h hw g hg1 fuel hf1
    have r2 := readD_store vs (storeV v h).2 (storeV_wf v h hw) g hg2 fuel hf2
    rw [List.mapM_cons, r1, r2]
    rfl
end

mutual
/-- Every address reachable from a stored copy lies in the window of
fresh addresses written by that store. -/
theorem reachV_store : ∀ (v : Value) (h : Heap), wfH h → ∀ (g : Heap),
    (∀ a, h.next ≤ a → a < (storeV v h).2.next → g.mem a = (storeV v h).2.mem a) →
    ∀ fuel b, b ∈ reachV g fuel (storeV v h).1 → h.next ≤ b ∧ b < (storeV v h).2.next
  | .vstr _, _, _, _, _, fuel, b, hb => by cases fuel <;> simp [reachV, storeV] at hb
  | .vnum _, _, _, _, _, fuel, b, hb => by cases fuel <;> simp [reachV, storeV] at hb
  | .vnull, _, _, _, _, fuel, b, hb => by cases fuel <;> simp [reachV, storeV] at hb
  | .vlist xs, h, hw, g, hg, fuel, b, hb => by
    have hm := storeL_next_mono xs h
    cases fuel with
    | zero =>
      simp only [storeV, reachV, List.mem_singleton] at hb
      subst hb
      simp only [storeV, alloc]
      omega
    | succ f =>
      have hcell := hg_list_cell xs h g hg
      simp only [storeV] at hb ⊢
      rw [reachV, hcell] at hb
      simp only [List.mem_cons] at hb
      rcases hb with hb | hb
      · subst hb
        simp only [alloc]
        omega
      · have := reachL_store xs h hw g (hg_list_step xs h g hg) f b hb
        simp only [alloc]
        omega
  | .vdict kvs, h, hw, g, hg, fuel, b, hb => by
    have hm := storeD_next_mono kvs h
    cases fuel with
    | zero =>
      simp only [storeV, reachV, List.mem_singleton] at hb
      subst hb
      simp only [storeV, alloc]
      omega
    | succ f =>
      have hcell := hg_dict_cell kvs h g hg
      simp only [storeV] at hb ⊢
      rw [reachV, hcell] at hb
      simp only [List.mem_cons] at hb
      rcases hb with hb | hb
      · subst hb
        simp only [alloc]
        omega
      · have := reachD_store kvs h hw g (hg_dict_step kvs h g hg) f b hb
        simp only [alloc]
        omega
/-- List version of `reachV_store`. -/
theorem reachL_store : ∀ (vs : List Value) (h : Heap), wfH h → ∀ (g : Heap),
    (∀ a, h.next ≤ a → a < (storeL vs h).2.next → g.mem a = (storeL vs h).2.mem a) →
    ∀ fuel b, b ∈ (storeL vs h).1.flatMap (reachV g fuel) →
      h.next ≤ b ∧ b < (storeL vs h).2.next
  | [], _, _, _, _, fuel, b, hb => by simp [storeL] at hb
  | v :: vs, h, hw, g, hg, fuel, b, hb => by
    have m1 := storeV_next_mono v h
    have m2 := storeL_next_mono vs (storeV v h).2
    simp only [storeL] at hg ⊢
    simp only [storeL, List.flatMap_cons, List.mem_append] at hb
    have hg1 : ∀ a, h.next ≤ a → a < (storeV v h).2.next →
        g.mem a = (storeV v h).2.mem a := by
      intro a ha1 ha2
      rw [hg a ha1 (by omega)]
      exact storeL_frame vs (storeV v h).2 a (Or.inl ha2)
    have hg2 : ∀ a, (storeV v h).2.next ≤ a → a < (storeL vs (storeV v h).2).2.next →
        g.mem a = (storeL vs (storeV v h).2).2.mem a := by
      intro a ha1 ha2
      exact hg a (by omega) ha2
    rcases hb with hb | hb
    · have := reachV_store v h hw g hg1 fuel b hb
      omega
    · have := reachL_store vs (storeV v h).2 (storeV_wf v h hw) g hg2 fuel b hb
      omega
/-- Dict version of `reachV_store`. -/
theorem reachD_store : ∀ (vs : List (String × Value)) (h : Heap), wfH h → ∀ (g : Heap),
    (∀ a, h.next ≤ a → a < (storeD vs h).2.next → g.mem a = (storeD vs h).2.mem a) →
    ∀ fuel b, b ∈ (storeD vs h).1.flatMap (fun p => reachV g fuel p.2) →
      h.next ≤ b ∧ b < (storeD vs h).2.next
  | [], _, _, _, _, fuel, b, hb => by simp [storeD] at hb
  | (k, v) :: vs, h, hw, g, hg, fuel, b, hb => by
    have m1 := storeV_next_mono v h
    have m2 := storeD_next_mono vs (storeV v h).2
    simp only [storeD] at hg ⊢
    simp only [storeD, List.flatMap_cons, List.mem_append] at hb
    have hg1 : ∀ a, h.next ≤ a → a < (storeV v h).2.next →
        g.mem a = (storeV v h).2.mem a := by
      intro a ha1 ha2
      rw [hg a ha1 (by omega)]
      exact storeD_frame vs (storeV v h).2 a (Or.inl ha2)
    have hg2 : ∀ a, (storeV v h).2.next ≤ a → a < (storeD vs (storeV v h).2).2.next →
        g.mem a = (storeD vs (storeV v h).2).2.mem a := by
      intro a ha1 ha2
      exact hg a (by omega) ha2
    rcases hb with hb | hb
    · have := reachV_store v h hw g hg1 fuel b hb
      omega
    · have := reachD_store vs (storeV v h).2 (storeV_wf v h hw) g hg2 fuel b hb
      omega
end

/-- Claim C3 (non-aliasing): for every known template name, the value
`get_template(name)` returns is a structurally independent deep copy of
the canonical template.  In the heap model: after a canonical copy and
two further calls, each copy reads back structurally equal to the
canonical dict, and overwriting any heap cell reachable from one
returned copy changes neither the read-back of the canonical copy nor
that of the other call's value. -/
theorem claim_C3_get_template_no_alias (name : String) (base : Dict)
    (hname : dlookup TEMPLATES name = some base) (h : Heap) (hw : wfH h)
    (vc : HVal) (h1 : Heap) (e1 : get_template_heap name h = some (vc, h1))
    (v1 : HVal) (h2 : Heap) (e2 : get_template_heap name h1 = some (v1, h2))
    (v2 : HVal) (h3 : Heap) (e3 : get_template_heap name h2 = some (v2, h3))
    (fuel : Nat) (hf : depthV (.vdict base) ≤ fuel) :
    readV h3 fuel vc = some (.vdict base) ∧
    readV h3 fuel v1 = some (.vdict base) ∧
    readV h3 fuel v2 = some (.vdict base) ∧
    (∀ rfuel b, b ∈ reachV h3 rfuel v1 → ∀ c,
      readV (hupdate h3 b c) fuel vc = some (.vdict base) ∧
      readV (hupdate h3 b c) fuel v2 = some (.vdict base)) ∧
    (∀ rfuel b, b ∈ reachV h3 rfuel v2 → ∀ c,
      readV (hupdate h3 b c) fuel vc = some (.vdict base) ∧
      readV (hupdate h3 b c) fuel v1 = some (.vdict base)) := by
  have s1 : storeV (.vdict base) h = (vc, h1) := by
    have h' := e1
    unfold get_template_heap at h'
    rw [hname] at h'
    exact Option.some.inj h'
  have hvc : vc = (storeV (.vdict base) h).1 := (congrArg Prod.fst s1).symm
  have hh1 : h1 = (storeV (.vdict base) h).2 := (congrArg Prod.snd s1).symm
  subst hvc
  subst hh1
  have s2 : storeV (.vdict base) (storeV (.vdict base) h).2 = (v1, h2) := by
    have h' := e2
    unfold get_template_heap at h'
    rw [hname] at h'
    exact Option.some.inj h'
  have hv1 : v1 = (storeV (.vdict base) (storeV (.vdict base) h).2).1 :=
    (congrArg Prod.fst s2).symm
  have hh2 : h2 = (storeV (.vdict base) (storeV (.vdict base) h).2).2 :=
    (congrArg Prod.snd s2).symm
  subst hv1
  subst hh2
  have s3 : storeV (.vdict base)
      (storeV (.vdict base) (storeV (.vdict base) h).2).2 = (v2, h3) := by
    have h' := e3
    unfold get_template_heap at h'
    rw [hname] at h'
    exact Option.some.inj h'
  have hv2 : v2 = (storeV (.vdict base)
      (storeV (.vdict base) (storeV (.vdict base) h).2).2).1 :=
    (congrArg Prod.fst s3).symm
  have hh3 : h3 = (storeV (.vdict base)
      (storeV (.vdict base) (storeV (.vdict base) h).2).2).2 :=
    (congrArg Prod.snd s3).symm
  subst hv2
  subst hh3
  have hw1 : wfH (storeV (.vdict base) h).2 := storeV_wf _ h hw
  have hw2 : wfH (storeV (.vdict base) (storeV (.vdict base) h).2).2 :=
    storeV_wf _ _ hw1
  have m1 := storeV_next_mono (.vdict base) h
  have m2 := storeV_next_mono (.vdict base) (storeV (.vdict base) h).2
  have m3 := storeV_next_mono (.vdict base)
    (storeV (.vdict base) (storeV (.vdict base) h).2).2
  have A2 : ∀ a, a < (storeV (.vdict base) (storeV (.vdict base) h).2).2.next →
      (storeV (.vdict base) (storeV (.vdict base) (storeV (.vdict base) h).2).2).2.mem a =
      (storeV (.vdict base) (storeV (.vdict base) h).2).2.mem a :=
    fun a ha => storeV_frame _ _ a (Or.inl ha)
  have A1 : ∀ a, a < (storeV (.vdict base) h).2.next →
      (storeV (.vdict base) (storeV (.vdict base) (storeV (.vdict base) h).2).2).2.mem a =
      (storeV (.vdict base) h).2.mem a :=
    fun a ha =>
      (A2 a (Nat.lt_of_lt_of_le ha m2)).trans (storeV_frame _ _ a (Or.inl ha))
  refine ⟨?_, ?_, ?_, ?_, ?_⟩
  · exact readV_store _ h hw _ (fun a _ ha2 => A1 a ha2) fuel hf
  · exact readV_store _ _ hw1 _ (fun a _ ha2 => A2 a ha2) fuel hf
  · exact readV_store _ _ hw2 _ (fun a _ _ => rfl) fuel hf
  · intro rfuel b hb c
    have bounds := reachV_store _ _ hw1 _ (fun a _ ha2 => A2 a ha2) rfuel b hb
    constructor
    · refine readV_store _ h hw _ (fun a _ ha2 => ?_) fuel hf
      have hne : ¬ a = b := by omega
      simp only [hupdate]
      rw [if_neg hne]
      exact A1 a ha2
    · refine readV_store _ _ hw2 _ (fun a ha1 _ => ?_) fuel hf
      have hne : ¬ a = b := by omega
      simp only [hupdate]
      rw [if_neg hne]
  · intro rfuel b hb c
    have bounds := reachV_store _ _ hw2 _ (fun a _ _ => rfl) rfuel b hb
    constructor
    · refine readV_store _ h hw _ (fun a _ ha2 => ?_) fuel hf
      have hne : ¬ a = b := by omega
      simp only [hupdate]
      rw [if_neg hne]
      exact A1 a ha2
    · refine readV_store _ _ hw1 _ (fun a _ ha2 => ?_) fuel hf
      have hne : ¬ a = b := by omega
      simp only [hupdate]
      rw [if_neg hne]
      exact A2 a ha2

/-- The empty Python object store. -/
def emptyHeap : Heap := ⟨fun _ => none, 0⟩

/-- The canonical `quiz` template (the entry of `TEMPLATES`). -/
def quizBase : Dict :=
  [ ("question", .vstr ""),
    ("options", .vlist [.vstr "", .vstr "", .vstr "", .vstr ""]),
    ("correct_answer", .vstr "A"),
    ("explanation", .vstr "") ]

/-- First copy of the quiz template (the canonical allocation). -/
def quizCopy1 : HVal × Heap := storeV (.vdict quizBase) emptyHeap

/-- Second copy (first `get_template` call). -/
def quizCopy2 : HVal × Heap := storeV (.vdict quizBase) quizCopy1.2

/-- Third copy (second `get_template` call). -/
def quizCopy3 : HVal × Heap := storeV (.vdict quizBase) quizCopy2.2

/-- Witness for claim C3 at the `quiz` template (which has a nested
options list) from the empty heap. -/
theorem claim_C3_witness :
    (dlookup TEMPLATES "quiz" = some quizBase) ∧ wfH emptyHeap ∧
    (get_template_heap "quiz" emptyHeap = some (quizCopy1.1, quizCopy1.2)) ∧
    (get_template_heap "quiz" quizCopy1.2 = some (quizCopy2.1, quizCopy2.2)) ∧
    (get_template_heap "quiz" quizCopy2.2 = some (quizCopy3.1, quizCopy3.2)) ∧
    (depthV (.vdict quizBase) ≤ 2) ∧
    (readV quizCopy3.2 2 quizCopy1.1 = some (.vdict quizBase) ∧
     readV quizCopy3.2 2 quizCopy2.1 = some (.vdict quizBase) ∧
     readV quizCopy3.2 2 quizCopy3.1 = some (.vdict quizBase) ∧
     (∀ rfuel b, b ∈ reachV quizCopy3.2 rfuel quizCopy2.1 → ∀ c,
       readV (hupdate quizCopy3.2 b c) 2 quizCopy1.1 = some (.vdict quizBase) ∧
       readV (hupdate quizCopy3.2 b c) 2 quizCopy3.1 = some (.vdict quizBase)) ∧
     (∀ rfuel b, b ∈ reachV quizCopy3.2 rfuel quizCopy3.1 → ∀ c,
       readV (hupdate quizCopy3.2 b c) 2 quizCopy1.1 = some (.vdict quizBase) ∧
       readV (hupdate quizCopy3.2 b c) 2 quizCopy2.1 = some (.vdict quizBase))) :=
  ⟨rfl, fun _ _ => rfl, rfl, rfl, rfl, by decide,
    claim_C3_get_template_no_alias "quiz" quizBase rfl emptyHeap (fun _ _ => rfl)
      quizCopy1.1 quizCopy1.2 rfl quizCopy2.1 quizCopy2.2 rfl
      quizCopy3.1 quizCopy3.2 rfl 2 (by decide)⟩

end StudyBuddy
